import Mathlib

/-!
Verification development for the UniLiveHub/www client-side attribution and
telemetry layer.

The JavaScript sources are shallowly embedded as executable Lean functions:

* the referral resolver, attribution persistence, and link rewriter from the
  referral-tracking module (the script embedded in src/user/capture-promo-images.sh);
* the event pipeline (sendToBackend retry loop and the update-gating entry
  points) from src/alex/analytics-tracker.js together with the deploy-time
  defaults of its configuration object;
* the milestone engine and webhook dedup logic from the analytics webhook
  module (src/unnamed/part_000).

Modelling conventions, kept uniform across the file:

* JavaScript objects built from URL query parameters are association lists
  with unique keys (`getUrlParams` lowercases keys and later duplicates
  overwrite earlier ones, so the resulting object is key-unique); lookups use
  the first matching entry.
* JavaScript truthiness on strings is the test against the empty string;
  truthiness on nullable values is `Option.isSome` (valid referral values are
  non-empty because the validation regexes require at least three characters).
* String coercion of `null` inside template literals and `URLSearchParams.set`
  produces the literal text "null"; `jsStr` models that coercion.
* Timestamps (`new Date().toISOString()`) and the landing-page URL are
  environment inputs that no analysed claim depends on; they are threaded as
  opaque string arguments or omitted from the records.
* Percent-encoding in cookies and URLs is the identity on every value the
  system stores (alphanumerics, underscore and the pipe separator), so it is
  not modelled.
-/

/-! ## Referral resolver: configuration and validation

From the referral-tracking module: REFERRAL_CONFIG and the two validation
regexes. -/

/-- Deploy-time referral configuration (REFERRAL_CONFIG in the source). -/
structure ReferralConfig where
  storageKey : String
  cookieName : String
  cookieDays : Nat
  defaultReferrer : String
  defaultCode : String
  validParams : List String
  utmParams : List String
  registrationUrls : List String

def REFERRAL_CONFIG : ReferralConfig :=
  { storageKey := "unilive_referral"
  , cookieName := "unilive_ref"
  , cookieDays := 30
  , defaultReferrer := "alex"
  , defaultCode := "zyDK65"
  , validParams := ["ref", "code", "invite", "referrer", "from", "invitecode", "refcode"]
  , utmParams := ["utm_source", "utm_medium", "utm_campaign", "utm_term", "utm_content"]
  , registrationUrls := ["https://h.unilive.io", "https://unilive.io", "https://app.unilive.io"]
  }

/-- isValidInviteCode: the regex test for [a-zA-Z0-9] with length 5 to 8. -/
def isValidInviteCode (code : String) : Bool :=
  decide (5 ≤ code.length) && decide (code.length ≤ 8) &&
    code.data.all (fun c => c.isAlphanum)

/-- isValidUsername: the regex test for [a-zA-Z0-9_] with length 3 to 20. -/
def isValidUsername (u : String) : Bool :=
  decide (3 ≤ u.length) && decide (u.length ≤ 20) &&
    u.data.all (fun c => c.isAlphanum || c == '_')

/-- The query-parameter object produced by getUrlParams: keys already
lowercased and unique. -/
abbrev Params := List (String × String)

/-- Read one parameter from the object (undefined becomes none). -/
def getParam (ps : Params) (k : String) : Option String := ps.lookup k

/-- JavaScript string coercion of a nullable string (template literals and
URLSearchParams.set turn null into the text "null"). -/
def jsStr : Option String → String
  | none => "null"
  | some s => s

/-- A parameter access guarded by JavaScript truthiness: present and
non-empty (the pattern `params.x && ...` in the source). -/
def paramTruthy (ps : Params) (n : String) : Option String :=
  match getParam ps n with
  | some v => if v = "" then none else some v
  | none => none

/-! ## Referral resolver: UTM extraction -/

/-- The five UTM fields extracted by extractUTMParams. -/
structure Utm where
  source : Option String
  medium : Option String
  campaign : Option String
  term : Option String
  content : Option String
deriving DecidableEq

def utmAllNone : Utm := ⟨none, none, none, none, none⟩

/-- One UTM read: `params[param] || null` (empty string collapses to null). -/
def utmGet (ps : Params) (k : String) : Option String :=
  match getParam ps k with
  | some v => if v = "" then none else some v
  | none => none

/-- extractUTMParams from the source, with the five fixed keys of
REFERRAL_CONFIG.utmParams. -/
def extractUTMParams (ps : Params) : Utm :=
  ⟨utmGet ps "utm_source", utmGet ps "utm_medium", utmGet ps "utm_campaign",
   utmGet ps "utm_term", utmGet ps "utm_content"⟩

/-- The truthiness test `Object.values(utm).some(v => v !== null)`. -/
def utmHasSome (u : Utm) : Bool :=
  u.source.isSome || u.medium.isSome || u.campaign.isSome ||
    u.term.isSome || u.content.isSome

/-! ## Referral resolver: extractReferralFromUrl

The generic pass iterates over REFERRAL_CONFIG.validParams; for each present,
non-empty value it first tests the invite-code pattern and otherwise the
username pattern, assigning the matching role.  The accumulator is the pair
(referrer, inviteCode). -/

/-- The body of one loop iteration of the generic pass (one paramName). -/
def applyParam (ps : Params) (acc : Option String × Option String) (n : String) :
    Option String × Option String :=
  match getParam ps n with
  | some v =>
      if v = "" then acc
      else if isValidInviteCode v then (acc.1, some v)
      else if isValidUsername v then (some v, acc.2)
      else acc
  | none => acc

/-- The generic pass of extractReferralFromUrl over a list of parameter
names. -/
def genericPassAux (ps : Params) : List String → Option String × Option String →
    Option String × Option String
  | [], acc => acc
  | n :: ns, acc => genericPassAux ps ns (applyParam ps acc n)

/-- The generic pass over the fixed priority list, starting from
(null, null). -/
def genericPass (ps : Params) : Option String × Option String :=
  genericPassAux ps REFERRAL_CONFIG.validParams (none, none)

/-- Result record of extractReferralFromUrl. -/
structure UrlReferral where
  referrer : Option String
  inviteCode : Option String
  source : String
deriving DecidableEq

/-- extractReferralFromUrl: the generic pass followed by the three
special-case overrides for ref, code and from (the last also forcing
source = shared_link). -/
def extractReferralFromUrl (ps : Params) : UrlReferral :=
  let rc := genericPass ps
  let referrer :=
    match paramTruthy ps "ref" with
    | some v => if isValidUsername v then some v else rc.1
    | none => rc.1
  let inviteCode :=
    match paramTruthy ps "code" with
    | some v => if isValidInviteCode v then some v else rc.2
    | none => rc.2
  match paramTruthy ps "from" with
  | some v =>
      if isValidUsername v then ⟨some v, inviteCode, "shared_link"⟩
      else ⟨referrer, inviteCode, "url_param"⟩
  | none => ⟨referrer, inviteCode, "url_param"⟩

/-! Analysis helpers for the generic pass: the candidate a given parameter
name contributes to each role, if any.  A value contributes to the
invite-code role when it matches the invite-code pattern, and to the referrer
role when it fails that pattern but matches the username pattern — mirroring
the else-if in the loop body. -/

def codeCandidate (ps : Params) (n : String) : Option String :=
  match getParam ps n with
  | some v => if v ≠ "" && isValidInviteCode v then some v else none
  | none => none

def usernameCandidate (ps : Params) (n : String) : Option String :=
  match getParam ps n with
  | some v => if v ≠ "" && !isValidInviteCode v && isValidUsername v then some v else none
  | none => none

/-! ## Referral resolver: the resolved state and initReferralTracking -/

/-- The referral state record.  The timestamp and landingPage fields of the
source record are environment-supplied values no claim depends on and are
omitted. -/
structure ReferralData where
  referrer : Option String
  inviteCode : Option String
  source : String
  utm : Utm
deriving DecidableEq

/-- The module-level referralData initialiser: referrer and inviteCode hold
the build-template placeholders of this snapshot of the source, source is
direct and the UTM block is all null. -/
def initialReferralData : ReferralData :=
  { referrer := some "user"
  , inviteCode := some "ITfssi"
  , source := "direct"
  , utm := utmAllNone }

/-- The resolution step of initReferralTracking: given the URL parameters,
the stored referral state (output of loadReferralData, none when absent) and
the initial module referralData, produce the final referralData.  The
JavaScript null-coalescing `a || b` on the URL fields is Option.or, and the
regex tests in the default branch coerce a null argument to the text "null"
as JavaScript does. -/
def resolveReferral (ps : Params) (stored : Option ReferralData)
    (rd : ReferralData) : ReferralData :=
  let u := extractReferralFromUrl ps
  let utm := extractUTMParams ps
  if u.referrer.isSome || u.inviteCode.isSome || utmHasSome utm then
    { rd with
      referrer := u.referrer.or rd.referrer
      , inviteCode := u.inviteCode.or rd.inviteCode
      , source := u.source
      , utm := utm }
  else
    match stored with
    | some s => s
    | none =>
        { rd with
          referrer :=
            if rd.referrer == some "user" || !isValidUsername (jsStr rd.referrer) then
              some REFERRAL_CONFIG.defaultReferrer
            else rd.referrer
          , inviteCode :=
            if rd.inviteCode == some "ITfssi" || !isValidInviteCode (jsStr rd.inviteCode) then
              some REFERRAL_CONFIG.defaultCode
            else rd.inviteCode }

/-- The URL-signal test of initReferralTracking (referral, invite or any UTM
parameter found). -/
def hasUrlSignal (ps : Params) : Bool :=
  (extractReferralFromUrl ps).referrer.isSome ||
    (extractReferralFromUrl ps).inviteCode.isSome ||
    utmHasSome (extractUTMParams ps)

/-! ## Attribution persistence: saveReferralData and loadReferralData

The primary store (localStorage under REFERRAL_CONFIG.storageKey) holds the
full JSON record; JSON serialisation is faithful for these records, so the
store holds the record itself.  The fallback is the compact cookie
`referrer|inviteCode` plus a separate UTM cookie.  The localOk flag models
localStorage being present and usable (setItem/getItem not throwing and the
stored JSON parsing); on failure both functions fall through exactly as the
try/catch in the source does. -/

structure Storage where
  localRef : Option ReferralData
  cookieRef : Option String
  cookieUtm : Option Utm
deriving DecidableEq

/-- JavaScript String.prototype.split on the pipe character, on character
lists: accumulates the current component and starts a new one at each
pipe. -/
def splitPipeAux : List Char → List Char → List (List Char)
  | [], acc => [acc.reverse]
  | c :: cs, acc =>
      if c = '|' then acc.reverse :: splitPipeAux cs []
      else splitPipeAux cs (c :: acc)

/-- The split of the compact cookie on the pipe separator performed by
loadReferralData. -/
def splitPipe (s : String) : List String :=
  (splitPipeAux s.data []).map String.mk

/-- saveReferralData: write the full record to the primary store (swallowing
failure), always write the compact `referrer|inviteCode` cookie (null fields
rendered as the text "null" by the template literal), and write the UTM
cookie only when some UTM field is non-null. -/
def saveReferralData (localOk : Bool) (st : Storage) (d : ReferralData) : Storage :=
  let st1 := if localOk then { st with localRef := some d } else st
  let st2 := { st1 with cookieRef := some ((jsStr d.referrer ++ "|") ++ jsStr d.inviteCode) }
  if utmHasSome d.utm then { st2 with cookieUtm := some d.utm } else st2

/-- The cookie-fallback branch of loadReferralData: split the compact cookie
on the pipe, null-coalesce each part with the deploy defaults, use source
"cookie" and the UTM cookie (or an all-null block).  An absent or empty
cookie yields none, as `if (cookieData)` does. -/
def loadFromCookie (st : Storage) : Option ReferralData :=
  match st.cookieRef with
  | none => none
  | some cd =>
      if cd = "" then none
      else
        let parts := splitPipe cd
        let referrer := parts.getD 0 ""
        let inviteCode := parts.getD 1 ""
        some { referrer := some (if referrer = "" then REFERRAL_CONFIG.defaultReferrer else referrer)
             , inviteCode := some (if inviteCode = "" then REFERRAL_CONFIG.defaultCode else inviteCode)
             , source := "cookie"
             , utm := st.cookieUtm.getD utmAllNone }

/-- loadReferralData: primary store first (when usable), then the cookie
fallback. -/
def loadReferralData (localOk : Bool) (st : Storage) : Option ReferralData :=
  if localOk then
    match st.localRef with
    | some d => some d
    | none => loadFromCookie st
  else loadFromCookie st

/-! ## Link rewriter: updateRegistrationLinks

The query string of a link is an association list in document order, possibly
with repeated keys.  URLSearchParams.get reads the first occurrence,
URLSearchParams.has tests presence, and URLSearchParams.set replaces the
first occurrence in place, deletes the remaining occurrences, and appends
when the key is absent. -/

abbrev Query := List (String × String)

def qGet (q : Query) (k : String) : Option String := q.lookup k

def qHas (q : Query) (k : String) : Bool := q.any (fun e => e.1 == k)

/-- Delete every entry with the given key (the tail clean-up of
URLSearchParams.set). -/
def removeAllKey (q : Query) (k : String) : Query := q.filter (fun e => e.1 != k)

/-- URLSearchParams.set. -/
def searchParamsSet : Query → String → String → Query
  | [], k, v => [(k, v)]
  | e :: rest, k, v =>
      if e.1 = k then (k, v) :: removeAllKey rest k
      else e :: searchParamsSet rest k v

/-- Character-list prefix test, the building block of the substring test. -/
def isPrefixCL : List Char → List Char → Bool
  | [], _ => true
  | _ :: _, [] => false
  | p :: ps, c :: cs => p == c && isPrefixCL ps cs

/-- Character-list substring test (String.prototype.includes). -/
def containsCL (pat : List Char) : List Char → Bool
  | [] => pat.isEmpty
  | c :: cs => isPrefixCL pat (c :: cs) || containsCL pat cs

/-- The substring test the link rewriter applies to each href against a
configured registration URL. -/
def strContains (s pat : String) : Bool := containsCL pat.data s.data

/-- The allow-list test: the link href contains one of the configured
registration URLs. -/
def isRegistrationHref (href : String) : Bool :=
  REFERRAL_CONFIG.registrationUrls.any (fun u => strContains href u)

/-- The entries of a query carrying a given key, in order (the occurrence
list URLSearchParams.getAll would report, used to state that other keys are
untouched). -/
def filterKey (q : Query) (k : String) : Query := q.filter (fun e => e.1 == k)

/-- The per-link rewrite of updateRegistrationLinks: always set recomId to
the invite code, and set referrer and source only when the query does not
already carry them. -/
def updateRegistrationLink (d : ReferralData) (q : Query) : Query :=
  let q1 := searchParamsSet q "recomId" (jsStr d.inviteCode)
  let q2 := if qHas q1 "referrer" then q1 else searchParamsSet q1 "referrer" (jsStr d.referrer)
  if qHas q2 "source" then q2 else searchParamsSet q2 "source" d.source

/-! ## Event pipeline: sendToBackend and its retry loop

From src/alex/analytics-tracker.js.  A network attempt either succeeds with
an optional record id in the response or fails (network error, timeout or a
non-2xx status, all of which throw in the per-backend helpers).  The mutable
module state visible to sendToBackend is the shared retry counter
config.options.maxRetries and analyticsData.recordId.  On failure, when the
counter is positive, a retry is scheduled after a constant
config.options.retryDelay milliseconds; the timer callback decrements the
counter and re-enters sendToBackend.  The model runs the event loop
sequentially: each retry chain is driven by the per-attempt outcome list and
returns the list of scheduled retry delays. -/

/-- Result of one network attempt of sendToBackend. -/
inductive Outcome
  | ok (id : Option String)
  | fail
deriving DecidableEq

/-- The mutable state sendToBackend reads and writes: the shared retry
budget (config.options.maxRetries) and the captured record id
(analyticsData.recordId). -/
structure SendState where
  budget : Nat
  recordId : Option String
deriving DecidableEq

/-- The capture step `if (response && response.id && !analyticsData.recordId)`:
a truthy id in the response is retained only while no id is captured yet. -/
def captureId (st : SendState) (id : Option String) : SendState :=
  match id, st.recordId with
  | some s, none => if s = "" then st else { st with recordId := some s }
  | _, _ => st

/-- One sendToBackend call together with its whole retry chain, driven by
the outcomes of the successive attempts.  Returns the final state and the
list of retry delays scheduled, in order. -/
def sendToBackendRun (retryDelay : Nat) : List Outcome → SendState → SendState × List Nat
  | [], st => (st, [])
  | Outcome.ok id :: _, st => (captureId st id, [])
  | Outcome.fail :: rest, st =>
      if st.budget = 0 then (st, [])
      else
        let r := sendToBackendRun retryDelay rest { st with budget := st.budget - 1 }
        (r.1, retryDelay :: r.2)

/-- A page session issuing several sendToBackend calls strictly in
sequence: each call's whole retry chain completes before the next call is
made, so one chain's positive-counter check and its later decrement never
interleave with another chain's — the non-overlapping special case of the
event loop.  Within a single serialized chain the counter is checked before
being consumed and never goes below zero.  The shared counter is threaded
through all calls.  The general interleaved event loop is modelled
separately by LoopState and loopStep. -/
def runRequests (retryDelay : Nat) : List (List Outcome) → SendState → SendState × List Nat
  | [], st => (st, [])
  | r :: rs, st =>
      let a := sendToBackendRun retryDelay r st
      let b := runRequests retryDelay rs a.1
      (b.1, a.2 ++ b.2)

/-! ## The interleaved event loop around the shared retry counter

The page is single-threaded, but sendToBackend suspends at its awaited
network call, so the atomic tasks the loop executes are smaller than a whole
retry chain.  The catch block of a failing attempt is one atomic task: it
reads config.options.maxRetries and, when positive, registers a retry timer
— the counter itself is not yet changed.  A registered timer firing is
another atomic task: the callback decrements the counter and re-enters
sendToBackend, whose own failure, if any, surfaces later as a further
fail task.  The counter is a JavaScript number and the unconditional
decrement in the callback can drive it negative.  Entry points are free to
start attempts at any time, so fail tasks are unconstrained; a fire task
needs a pending timer (a fire with none pending is modelled as a no-op and
never occurs in a real trace). -/

/-- The loop state the retry logic touches: the shared counter
(config.options.maxRetries) and the retry timers registered but not yet
fired. -/
structure LoopState where
  counter : Int
  pending : Nat
deriving DecidableEq

/-- The two atomic tasks that touch the shared counter. -/
inductive LoopEvent
  | fail
  | fire
deriving DecidableEq

/-- One atomic task of the event loop: a failing attempt's catch schedules
a retry only when the counter is positive at that moment; a firing timer
decrements the counter unconditionally. -/
def loopStep (st : LoopState) : LoopEvent → LoopState
  | LoopEvent.fail =>
      if 0 < st.counter then { st with pending := st.pending + 1 } else st
  | LoopEvent.fire =>
      if st.pending = 0 then st
      else { counter := st.counter - 1, pending := st.pending - 1 }

/-- Run a trace of atomic tasks. -/
def loopRun : LoopState → List LoopEvent → LoopState
  | st, [] => st
  | st, e :: es => loopRun (loopStep st e) es

/-- The retries executed along a trace: the fire tasks that found a pending
timer. -/
def retriesFired : LoopState → List LoopEvent → Nat
  | _, [] => 0
  | st, e :: es =>
      (if e = LoopEvent.fire ∧ st.pending ≠ 0 then 1 else 0) +
        retriesFired (loopStep st e) es

/-- The retry-related deploy-time defaults of AnalyticsConfig.options. -/
structure AnalyticsRetryOptions where
  maxRetries : Nat
  retryDelay : Nat
deriving DecidableEq

def defaultAnalyticsRetryOptions : AnalyticsRetryOptions :=
  { maxRetries := 3, retryDelay := 1000 }

/-- Modelled from the spec: the retry-delay schedule the spec describes for
the event pipeline — exponential backoff starting at `base` milliseconds and
doubling on each successive attempt, for `n` retries.  Stated from the
spec's words for comparison with the schedule the code produces. -/
def specExponentialBackoffDelays (n base : Nat) : List Nat :=
  (List.range n).map (fun k => base * 2 ^ k)

/-! ## Event pipeline: the update-gating entry points

The tracking entry points of analytics-tracker.js that can reach
sendToBackend, with the network side abstracted to the kind of call they
issue.  A create call's response may carry the backend-assigned id; the
capture rule is the one of sendToBackend.  Updates issued while recordId is
null are dropped by the guards in the source (updateTimeOnPage, trackClick,
trackRegistration, updateField and sendFinalUpdate all test
analyticsData.recordId first). -/

/-- The kind of network call an entry point issues. -/
inductive Call
  | create
  | update
deriving DecidableEq

/-- The per-session tracking state the entry points read and write. -/
structure TrackState where
  recordId : Option String
  clicks : Nat
deriving DecidableEq

/-- analyticsData at page load: no record id, zero clicks. -/
def initialTrackState : TrackState := ⟨none, 0⟩

/-- The tracking events of a session.  For the two create-issuing events the
argument is the response id the backend returns for that call (none for a
failed call or an id-less response body). -/
inductive TrackOp
  | pageView (resp : Option String)
  | timeTick
  | click (cta : Bool)
  | registrationClick
  | trackEventOp (resp : Option String)
  | updateFieldOp
  | finalUpdate
deriving DecidableEq

/-- The id-capture rule applied to a create response (same test as
captureId, on the tracking state). -/
def respCapture (st : TrackState) (resp : Option String) : TrackState :=
  match resp, st.recordId with
  | some s, none => if s = "" then st else { st with recordId := some s }
  | _, _ => st

/-- One tracking event: the state transition and the backend calls issued.
pageView and trackEvent issue a create; every update path is guarded on a
captured recordId and is dropped (no call, nothing queued) when the id is
still null.  trackClick increments the click counter first and issues its
update only for a CTA target. -/
def trackStep (st : TrackState) : TrackOp → TrackState × List Call
  | TrackOp.pageView resp => (respCapture st resp, [Call.create])
  | TrackOp.timeTick =>
      if st.recordId.isSome then (st, [Call.update]) else (st, [])
  | TrackOp.click cta =>
      let st1 := { st with clicks := st.clicks + 1 }
      if cta && st1.recordId.isSome then (st1, [Call.update]) else (st1, [])
  | TrackOp.registrationClick =>
      if st.recordId.isSome then (st, [Call.update]) else (st, [])
  | TrackOp.trackEventOp resp => (respCapture st resp, [Call.create])
  | TrackOp.updateFieldOp =>
      if st.recordId.isSome then (st, [Call.update]) else (st, [])
  | TrackOp.finalUpdate =>
      if st.recordId.isSome then (st, [Call.update]) else (st, [])

/-- A session: the sequence of tracking events, with the calls issued
concatenated in order. -/
def trackRun : TrackState → List TrackOp → TrackState × List Call
  | st, [] => (st, [])
  | st, op :: ops =>
      let a := trackStep st op
      let b := trackRun a.1 ops
      (b.1, a.2 ++ b.2)

/-- Whether an event is a create call that completed with a truthy
backend-assigned id (the only way recordId ever becomes non-null). -/
def createCompletes : TrackOp → Bool
  | TrackOp.pageView (some s) => s != ""
  | TrackOp.trackEventOp (some s) => s != ""
  | _ => false

/-! ## Milestone engine and webhook dedup

From the analytics webhook module (src/unnamed/part_000): the MILESTONES
threshold table, the persisted achieved-milestone map, checkMilestone and the
monitorMilestones polling tick.  Firing a milestone means invoking
sendWebhook on the milestone endpoint; the model records the fired dedup
keys in order.  The map stores achieved-at timestamps; the code only ever
tests presence of a key (the stored ISO timestamp is never empty, so
JavaScript truthiness agrees with presence). -/

/-- The milestone threshold table; an unknown category has no thresholds
(the optional-chaining lookup yields undefined and the includes test is
never true). -/
def MILESTONES : String → List Nat
  | "visitors" => [10, 50, 100, 500, 1000, 5000, 10000]
  | "registrations" => [1, 5, 10, 25, 50, 100, 500]
  | "referrals" => [5, 10, 25, 50, 100]
  | _ => []

/-- The persisted achievedMilestones map: dedup key to achieved-at
timestamp. -/
abbrev MilestoneMap := List (String × String)

/-- The dedup key, a template literal over the category and threshold. -/
def milestoneKey (t : String) (v : Nat) : String := (t ++ "_") ++ toString v

/-- Presence of a key in the persisted map. -/
def achievedHas (m : MilestoneMap) (k : String) : Bool := (m.lookup k).isSome

/-- checkMilestone: fire (and record) exactly when the key is not yet in the
map and the value is a configured threshold of the category.  Returns the
updated map and whether the milestone webhook was dispatched. -/
def checkMilestone (m : MilestoneMap) (now t : String) (v : Nat) :
    MilestoneMap × Bool :=
  let key := milestoneKey t v
  if !achievedHas m key && (MILESTONES t).contains v then
    ((key, now) :: m, true)
  else (m, false)

/-- One checkMilestone call threaded through an accumulator of the map and
the keys fired so far. -/
def checkStep (acc : MilestoneMap × List String) (t : String) (v : Nat)
    (now : String) : MilestoneMap × List String :=
  let r := checkMilestone acc.1 now t v
  (r.1, acc.2 ++ if r.2 then [milestoneKey t v] else [])

/-- A sequence of checkMilestone calls (category, value, timestamp). -/
def runChecks : List (String × Nat × String) → MilestoneMap × List String →
    MilestoneMap × List String
  | [], acc => acc
  | (t, v, n) :: rest, acc => runChecks rest (checkStep acc t v n)

/-- One category loop of the monitorMilestones tick:
`MILESTONES[t].forEach(m => { if (value >= m) checkMilestone(t, m, stats) })`. -/
def fireCategory (t : String) (value : Nat) (now : String)
    (acc : MilestoneMap × List String) : MilestoneMap × List String :=
  (MILESTONES t).foldl
    (fun a m => if value ≥ m then checkStep a t m now else a) acc

/-- The aggregate stats object the tick reads
(UniLiveAnalytics.getStats()): it carries a visitor count and a registration
count and no referral count. -/
structure Stats where
  totalVisitors : Nat
  registrations : Nat
deriving DecidableEq

/-- One tick of monitorMilestones: the visitors loop runs when the visitor
count is truthy (non-zero), then the registrations loop when the
registration count is truthy.  No other category is polled. -/
def monitorTick (m : MilestoneMap) (now : String) (s : Stats) :
    MilestoneMap × List String :=
  let acc : MilestoneMap × List String := (m, [])
  let acc := if s.totalVisitors ≠ 0 then fireCategory "visitors" s.totalVisitors now acc else acc
  if s.registrations ≠ 0 then fireCategory "registrations" s.registrations now acc else acc

/-- The polling interval of monitorMilestones, in milliseconds. -/
def monitorIntervalMs : Nat := 60000

/-- The tick expressed as a flat call sequence: each guarded category loop
contributes one call per configured threshold at or below the category
value. -/
def tickCalls (now : String) (s : Stats) : List (String × Nat × String) :=
  (if s.totalVisitors ≠ 0 then
      ((MILESTONES "visitors").filter (fun v => s.totalVisitors ≥ v)).map
        (fun v => ("visitors", v, now))
    else []) ++
  (if s.registrations ≠ 0 then
      ((MILESTONES "registrations").filter (fun v => s.registrations ≥ v)).map
        (fun v => ("registrations", v, now))
    else [])

/-! ## Lemmas about the generic pass -/

theorem applyParam_eq (ps : Params) (acc : Option String × Option String) (n : String) :
    applyParam ps acc n =
      ((usernameCandidate ps n).or acc.1, (codeCandidate ps n).or acc.2) := by
  unfold applyParam usernameCandidate codeCandidate
  cases h : getParam ps n with
  | none => simp
  | some v =>
      by_cases hv : v = ""
      · simp [hv]
      · by_cases hc : isValidInviteCode v
        · simp [hv, hc]
        · by_cases hu : isValidUsername v
          · simp [hv, hc, hu]
          · simp [hv, hc, hu]

theorem optLast_cons {α : Type} (a : α) (l : List α) :
    (a :: l).getLast? = Option.or l.getLast? (some a) := by
  induction l generalizing a with
  | nil => rfl
  | cons b t ih =>
      rw [List.getLast?_cons_cons, ih b]
      cases h : t.getLast? <;> simp [Option.or]

theorem genericPassAux_eq (ps : Params) (ns : List String) :
    ∀ acc : Option String × Option String,
      genericPassAux ps ns acc =
        (Option.or ((ns.filterMap (usernameCandidate ps)).getLast?) acc.1,
         Option.or ((ns.filterMap (codeCandidate ps)).getLast?) acc.2) := by
  induction ns with
  | nil => intro acc; simp [genericPassAux]
  | cons n ns ih =>
      intro acc
      rw [genericPassAux, ih, applyParam_eq]
      simp only [List.filterMap_cons, Prod.mk.injEq]
      constructor
      · cases hu : usernameCandidate ps n <;>
          simp [hu, optLast_cons, Option.or_assoc]
      · cases hc : codeCandidate ps n <;>
          simp [hc, optLast_cons, Option.or_assoc]

/-! ## Lemmas about the retry loop -/

/-- Each scheduled retry consumes exactly one unit of the shared budget:
the delays emitted plus the remaining budget account for the whole initial
budget.  The captured record id never changes the budget. -/
theorem sendToBackendRun_budget (d : Nat) (os : List Outcome) (st : SendState) :
    (sendToBackendRun d os st).1.budget + (sendToBackendRun d os st).2.length
      = st.budget := by
  induction os generalizing st with
  | nil => rfl
  | cons o rest ih =>
      cases o with
      | ok id =>
          simp only [sendToBackendRun, List.length_nil, Nat.add_zero]
          unfold captureId
          cases id with
          | none => rfl
          | some s =>
              cases h : st.recordId with
              | none => by_cases hs : s = "" <;> simp [hs]
              | some r => simp
      | fail =>
          by_cases hb : st.budget = 0
          · simp [sendToBackendRun, hb]
          · simp only [sendToBackendRun, hb, if_false, List.length_cons]
            have h2 : (sendToBackendRun d rest { st with budget := st.budget - 1 }).1.budget
                + (sendToBackendRun d rest { st with budget := st.budget - 1 }).2.length
                = st.budget - 1 := ih { st with budget := st.budget - 1 }
            omega

theorem runRequests_budget (d : Nat) (rs : List (List Outcome)) (st : SendState) :
    (runRequests d rs st).1.budget + (runRequests d rs st).2.length = st.budget := by
  induction rs generalizing st with
  | nil => rfl
  | cons r rest ih =>
      simp only [runRequests, List.length_append]
      have h1 := sendToBackendRun_budget d r st
      have h2 := ih (sendToBackendRun d r st).1
      omega

/-- Along any interleaved trace of the event loop, the counter's total
decrease equals the number of retries executed: each executed retry
decrements the shared counter by exactly one, and nothing else changes it. -/
theorem loopRun_counter (es : List LoopEvent) :
    ∀ st : LoopState,
      st.counter - (loopRun st es).counter = (retriesFired st es : Int) := by
  induction es with
  | nil => intro st; simp [loopRun, retriesFired]
  | cons e es ih =>
      intro st
      cases e with
      | fail =>
          have hc : (loopStep st LoopEvent.fail).counter = st.counter := by
            unfold loopStep
            by_cases h : 0 < st.counter <;> simp [h]
          have ihs := ih (loopStep st LoopEvent.fail)
          rw [hc] at ihs
          rw [loopRun, retriesFired]
          simpa using ihs
      | fire =>
          by_cases hp : st.pending = 0
          · have hstep : loopStep st LoopEvent.fire = st := by
              unfold loopStep
              simp [hp]
            have ihs := ih (loopStep st LoopEvent.fire)
            rw [hstep] at ihs
            rw [loopRun, retriesFired, hstep]
            simpa [hp] using ihs
          · have hstep : loopStep st LoopEvent.fire
                = { counter := st.counter - 1, pending := st.pending - 1 } := by
              unfold loopStep
              simp [hp]
            have ihs : st.counter - 1
                - (loopRun { counter := st.counter - 1, pending := st.pending - 1 } es).counter
                = (retriesFired { counter := st.counter - 1, pending := st.pending - 1 } es : Int) := by
              have h0 := ih (loopStep st LoopEvent.fire)
              rw [hstep] at h0
              exact h0
            rw [loopRun, retriesFired, hstep]
            simp only [hp, ne_eq, not_false_eq_true, and_true, if_pos, Nat.cast_add,
              Nat.cast_one]
            omega

/-- A request whose attempts all fail consumes the whole remaining budget,
one constant-delay retry per unit, and then stops with nothing scheduled. -/
theorem sendToBackendRun_all_fail (d : Nat) :
    ∀ (b n : Nat) (r : Option String), b ≤ n →
      sendToBackendRun d (List.replicate n Outcome.fail) ⟨b, r⟩
        = (⟨0, r⟩, List.replicate b d) := by
  intro b
  induction b with
  | zero =>
      intro n r _
      cases n with
      | zero => rfl
      | succ m => simp [sendToBackendRun, List.replicate_succ]
  | succ k ih =>
      intro n r hbn
      cases n with
      | zero => omega
      | succ m =>
          have hk : k ≤ m := Nat.succ_le_succ_iff.mp hbn
          simp [sendToBackendRun, List.replicate_succ, ih m r hk]

/-! ## Lemmas about the update-gating entry points -/

/-- With no captured record id, no entry point issues an update call. -/
theorem trackStep_no_update (st : TrackState) (op : TrackOp)
    (h : st.recordId = none) : Call.update ∉ (trackStep st op).2 := by
  cases op <;> simp [trackStep, h]

/-- With no captured record id, an event that is not a completing create
leaves the record id uncaptured. -/
theorem trackStep_recordId_none (st : TrackState) (op : TrackOp)
    (h : st.recordId = none) (hop : createCompletes op = false) :
    (trackStep st op).1.recordId = none := by
  cases op with
  | pageView resp =>
      cases resp with
      | none => simp [trackStep, respCapture, h]
      | some s =>
          have hs : s = "" := by simpa [createCompletes] using hop
          simp [trackStep, respCapture, h, hs]
  | trackEventOp resp =>
      cases resp with
      | none => simp [trackStep, respCapture, h]
      | some s =>
          have hs : s = "" := by simpa [createCompletes] using hop
          simp [trackStep, respCapture, h, hs]
  | click cta => by_cases hc : cta <;> simp [trackStep, h, hc]
  | timeTick => simp [trackStep, h]
  | registrationClick => simp [trackStep, h]
  | updateFieldOp => simp [trackStep, h]
  | finalUpdate => simp [trackStep, h]

/-- Along a session in which no create call ever completes with an id, no
update call is ever issued. -/
theorem trackRun_no_update (ops : List TrackOp) :
    ∀ st : TrackState, st.recordId = none →
      (∀ op ∈ ops, createCompletes op = false) →
      Call.update ∉ (trackRun st ops).2 := by
  induction ops with
  | nil => intro st _ _; simp [trackRun]
  | cons op rest ih =>
      intro st hst hops
      simp only [trackRun, List.mem_append]
      push_neg
      refine ⟨trackStep_no_update st op hst, ?_⟩
      exact ih (trackStep st op).1
        (trackStep_recordId_none st op hst (hops op (by simp)))
        (fun o ho => hops o (by simp [ho]))

/-! ## Lemmas about the milestone engine -/

theorem achievedHas_cons (m : MilestoneMap) (k k' n : String) :
    achievedHas ((k', n) :: m) k = (k == k' || achievedHas m k) := by
  cases h : k == k' <;> simp [achievedHas, List.lookup, h]

/-- A firing step of checkMilestone. -/
theorem checkStep_fire (acc : MilestoneMap × List String) (t : String) (v : Nat)
    (now : String) (h1 : achievedHas acc.1 (milestoneKey t v) = false)
    (h2 : (MILESTONES t).contains v = true) :
    checkStep acc t v now
      = ((milestoneKey t v, now) :: acc.1, acc.2 ++ [milestoneKey t v]) := by
  have h2m : v ∈ MILESTONES t := by simpa using h2
  simp [checkStep, checkMilestone, h1, h2m]

/-- A non-firing step of checkMilestone leaves the accumulator unchanged. -/
theorem checkStep_skip (acc : MilestoneMap × List String) (t : String) (v : Nat)
    (now : String)
    (h : achievedHas acc.1 (milestoneKey t v) = true ∨
      (MILESTONES t).contains v = false) :
    checkStep acc t v now = acc := by
  rcases h with h | h
  · simp [checkStep, checkMilestone, h]
  · have hm : v ∉ MILESTONES t := by simpa using h
    simp [checkStep, checkMilestone, hm]

/-- Keys already fired stay in the fired list. -/
theorem runChecks_fired_mono (calls : List (String × Nat × String)) :
    ∀ (acc : MilestoneMap × List String) (k : String),
      k ∈ acc.2 → k ∈ (runChecks calls acc).2 := by
  induction calls with
  | nil => intro acc k hk; exact hk
  | cons c rest ih =>
      rcases c with ⟨t, v, n⟩
      intro acc k hk
      by_cases h1 : achievedHas acc.1 (milestoneKey t v) = true
      · rw [runChecks, checkStep_skip acc t v n (Or.inl h1)]; exact ih acc k hk
      · by_cases h2 : (MILESTONES t).contains v = true
        · rw [runChecks,
            checkStep_fire acc t v n (Bool.not_eq_true _ ▸ h1) h2]
          exact ih _ k (by simp [hk])
        · rw [runChecks,
            checkStep_skip acc t v n (Or.inr (Bool.not_eq_true _ ▸ h2))]
          exact ih acc k hk

/-- Keys present in the map stay present along a run. -/
theorem runChecks_keys_mono (calls : List (String × Nat × String)) :
    ∀ (acc : MilestoneMap × List String) (k : String),
      achievedHas acc.1 k = true → achievedHas (runChecks calls acc).1 k = true := by
  induction calls with
  | nil => intro acc k hk; exact hk
  | cons c rest ih =>
      rcases c with ⟨t, v, n⟩
      intro acc k hk
      by_cases h1 : achievedHas acc.1 (milestoneKey t v) = true
      · rw [runChecks, checkStep_skip acc t v n (Or.inl h1)]; exact ih acc k hk
      · by_cases h2 : (MILESTONES t).contains v = true
        · rw [runChecks,
            checkStep_fire acc t v n (Bool.not_eq_true _ ▸ h1) h2]
          exact ih _ k (by simp [achievedHas_cons, hk])
        · rw [runChecks,
            checkStep_skip acc t v n (Or.inr (Bool.not_eq_true _ ▸ h2))]
          exact ih acc k hk

/-- A key recorded in the map before the run never fires during the run. -/
theorem runChecks_no_refire (calls : List (String × Nat × String)) :
    ∀ (acc : MilestoneMap × List String) (k : String),
      achievedHas acc.1 k = true → k ∈ (runChecks calls acc).2 → k ∈ acc.2 := by
  induction calls with
  | nil => intro acc k _ hk; exact hk
  | cons c rest ih =>
      rcases c with ⟨t, v, n⟩
      intro acc k hach hk
      by_cases h1 : achievedHas acc.1 (milestoneKey t v) = true
      · rw [runChecks, checkStep_skip acc t v n (Or.inl h1)] at hk
        exact ih acc k hach hk
      · by_cases h2 : (MILESTONES t).contains v = true
        · rw [runChecks,
            checkStep_fire acc t v n (Bool.not_eq_true _ ▸ h1) h2] at hk
          have hne : k ≠ milestoneKey t v := by
            intro he; rw [he] at hach; exact h1 hach
          have h3 := ih ((milestoneKey t v, n) :: acc.1, acc.2 ++ [milestoneKey t v]) k
            (by simp [achievedHas_cons, hach]) hk
          simpa [hne] using h3
        · rw [runChecks,
            checkStep_skip acc t v n (Or.inr (Bool.not_eq_true _ ▸ h2))] at hk
          exact ih acc k hach hk

/-- Completeness: a configured threshold whose key is not yet in the map and
that occurs among the calls fires during the run. -/
theorem runChecks_complete (calls : List (String × Nat × String)) :
    ∀ (acc : MilestoneMap × List String) (t : String) (v : Nat),
      (∃ n, (t, v, n) ∈ calls) → (MILESTONES t).contains v = true →
      achievedHas acc.1 (milestoneKey t v) = false →
      milestoneKey t v ∈ (runChecks calls acc).2 := by
  induction calls with
  | nil => intro acc t v hmem _ _; rcases hmem with ⟨n, hn⟩; cases hn
  | cons c rest ih =>
      rcases c with ⟨t0, v0, n0⟩
      intro acc t v hmem hcont habs
      rcases hmem with ⟨n, hn⟩
      rcases List.mem_cons.mp hn with hhead | htail
      · -- the witnessing call is the head: it fires now
        have ht : t0 = t ∧ v0 = v ∧ n0 = n := by
          injection hhead with e1 e2
          injection e2 with e2a e2b
          exact ⟨e1.symm, e2a.symm, e2b.symm⟩
        rcases ht with ⟨rfl, rfl, rfl⟩
        rw [runChecks, checkStep_fire acc t0 v0 n0 habs hcont]
        exact runChecks_fired_mono rest _ _ (by simp)
      · -- the witnessing call is later
        by_cases h1 : achievedHas acc.1 (milestoneKey t0 v0) = true
        · rw [runChecks, checkStep_skip acc t0 v0 n0 (Or.inl h1)]
          exact ih acc t v ⟨n, htail⟩ hcont habs
        · by_cases h2 : (MILESTONES t0).contains v0 = true
          · rw [runChecks,
              checkStep_fire acc t0 v0 n0 (Bool.not_eq_true _ ▸ h1) h2]
            by_cases he : milestoneKey t v = milestoneKey t0 v0
            · exact runChecks_fired_mono rest _ _ (by simp [he])
            · refine ih _ t v ⟨n, htail⟩ hcont ?_
              simp [achievedHas_cons, habs, he]
          · rw [runChecks,
              checkStep_skip acc t0 v0 n0 (Or.inr (Bool.not_eq_true _ ▸ h2))]
            exact ih acc t v ⟨n, htail⟩ hcont habs

/-- Soundness: anything fired during a run was either fired before or is the
key of one of the calls. -/
theorem runChecks_sound (calls : List (String × Nat × String)) :
    ∀ (acc : MilestoneMap × List String) (k : String),
      k ∈ (runChecks calls acc).2 →
      k ∈ acc.2 ∨ ∃ t v n, (t, v, n) ∈ calls ∧ k = milestoneKey t v := by
  induction calls with
  | nil => intro acc k hk; exact Or.inl hk
  | cons c rest ih =>
      rcases c with ⟨t0, v0, n0⟩
      intro acc k hk
      by_cases h1 : achievedHas acc.1 (milestoneKey t0 v0) = true
      · rw [runChecks, checkStep_skip acc t0 v0 n0 (Or.inl h1)] at hk
        rcases ih acc k hk with h | ⟨t, v, n, hm, he⟩
        · exact Or.inl h
        · exact Or.inr ⟨t, v, n, by simp [hm], he⟩
      · by_cases h2 : (MILESTONES t0).contains v0 = true
        · rw [runChecks,
            checkStep_fire acc t0 v0 n0 (Bool.not_eq_true _ ▸ h1) h2] at hk
          rcases ih _ k hk with h | ⟨t, v, n, hm, he⟩
          · rcases List.mem_append.mp h with h | h
            · exact Or.inl h
            · exact Or.inr ⟨t0, v0, n0, by simp, by simpa using h⟩
          · exact Or.inr ⟨t, v, n, by simp [hm], he⟩
        · rw [runChecks,
            checkStep_skip acc t0 v0 n0 (Or.inr (Bool.not_eq_true _ ▸ h2))] at hk
          rcases ih acc k hk with h | ⟨t, v, n, hm, he⟩
          · exact Or.inl h
          · exact Or.inr ⟨t, v, n, by simp [hm], he⟩

/-- A given key fires at most once along any run: the fired-list count grows
by at most one, and only when the key is still absent from the map. -/
theorem runChecks_count (calls : List (String × Nat × String)) :
    ∀ (acc : MilestoneMap × List String) (k : String),
      (runChecks calls acc).2.count k ≤
        acc.2.count k + (if achievedHas acc.1 k = true then 0 else 1) := by
  induction calls with
  | nil =>
      intro acc k
      have hnil : runChecks [] acc = acc := rfl
      rw [hnil]
      split <;> omega
  | cons c rest ih =>
      rcases c with ⟨t0, v0, n0⟩
      intro acc k
      by_cases h1 : achievedHas acc.1 (milestoneKey t0 v0) = true
      · rw [runChecks, checkStep_skip acc t0 v0 n0 (Or.inl h1)]; exact ih acc k
      · have h1f : achievedHas acc.1 (milestoneKey t0 v0) = false :=
          Bool.not_eq_true _ ▸ h1
        by_cases h2 : (MILESTONES t0).contains v0 = true
        · rw [runChecks, checkStep_fire acc t0 v0 n0 h1f h2]
          have h3 := ih ((milestoneKey t0 v0, n0) :: acc.1, acc.2 ++ [milestoneKey t0 v0]) k
          by_cases he : k = milestoneKey t0 v0
          · have hcnt : (acc.2 ++ [milestoneKey t0 v0]).count k = acc.2.count k + 1 := by
              rw [he]; simp [List.count_append]
            have hach : achievedHas ((milestoneKey t0 v0, n0) :: acc.1) k = true := by
              simp [achievedHas_cons, he]
            have hif : (if achievedHas acc.1 k = true then (0 : Nat) else 1) = 1 := by
              rw [he, h1f]; simp
            rw [hcnt, hach] at h3
            simp only [if_pos] at h3
            rw [hif]
            omega
          · have hcnt : (acc.2 ++ [milestoneKey t0 v0]).count k = acc.2.count k := by
              simp [List.count_append, List.count_cons, he]
            have hach : achievedHas ((milestoneKey t0 v0, n0) :: acc.1) k
                = achievedHas acc.1 k := by
              simp [achievedHas_cons, he]
            rw [hcnt, hach] at h3
            exact h3
        · rw [runChecks,
            checkStep_skip acc t0 v0 n0 (Or.inr (Bool.not_eq_true _ ▸ h2))]
          exact ih acc k

/-- Runs compose over concatenation of the call lists. -/
theorem runChecks_append (c1 c2 : List (String × Nat × String)) :
    ∀ acc, runChecks (c1 ++ c2) acc = runChecks c2 (runChecks c1 acc) := by
  induction c1 with
  | nil => intro acc; rfl
  | cons c rest ih =>
      rcases c with ⟨t, v, n⟩
      intro acc
      rw [List.cons_append, runChecks, runChecks, ih]

/-- The guarded forEach of one category equals the run over its filtered,
flattened call list. -/
theorem fireCategory_eq (t : String) (value : Nat) (now : String) :
    ∀ acc, fireCategory t value now acc
      = runChecks (((MILESTONES t).filter (fun v => value ≥ v)).map
          (fun v => (t, v, now))) acc := by
  suffices h : ∀ (L : List Nat) (acc : MilestoneMap × List String),
      L.foldl (fun a m => if value ≥ m then checkStep a t m now else a) acc
        = runChecks ((L.filter (fun v => value ≥ v)).map (fun v => (t, v, now))) acc by
    intro acc; exact h (MILESTONES t) acc
  intro L
  induction L with
  | nil => intro acc; rfl
  | cons m rest ih =>
      intro acc
      by_cases hm : value ≥ m
      · rw [List.foldl_cons, if_pos hm,
          List.filter_cons_of_pos (by simpa using hm), List.map_cons]
        exact ih (checkStep acc t m now)
      · rw [List.foldl_cons, if_neg hm,
          List.filter_cons_of_neg (by simpa using hm)]
        exact ih acc

/-- The monitorMilestones tick is the run over its flat call list. -/
theorem monitorTick_eq (m : MilestoneMap) (now : String) (s : Stats) :
    monitorTick m now s = runChecks (tickCalls now s) (m, []) := by
  unfold monitorTick tickCalls
  by_cases hv : s.totalVisitors ≠ 0 <;> by_cases hr : s.registrations ≠ 0 <;>
    simp [hv, hr, runChecks_append, fireCategory_eq, runChecks]

/-! ## Lemmas about the compact-cookie encoding -/

theorem splitPipeAux_append (l1 : List Char) :
    ∀ (l2 acc : List Char), (∀ c ∈ l1, c ≠ '|') →
      splitPipeAux (l1 ++ '|' :: l2) acc
        = (acc.reverse ++ l1) :: splitPipeAux l2 [] := by
  induction l1 with
  | nil => intro l2 acc _; simp [splitPipeAux]
  | cons c t ih =>
      intro l2 acc hnp
      have hc : c ≠ '|' := hnp c (by simp)
      rw [List.cons_append, splitPipeAux, if_neg hc, ih l2 (c :: acc)
        (fun x hx => hnp x (by simp [hx]))]
      simp

/-- Splitting a cookie that starts with a pipe-free component recovers that
component first. -/
theorem splitPipe_prefix (s r : String) (h : ∀ c ∈ s.data, c ≠ '|') :
    splitPipe ((s ++ "|") ++ r) = s :: splitPipe r := by
  unfold splitPipe
  have hdata : ((s ++ "|") ++ r).data = s.data ++ '|' :: r.data := by
    simp [String.data_append]
  rw [hdata, splitPipeAux_append s.data r.data [] h]
  simp

/-! ## Lemmas about URLSearchParams -/

theorem qGet_cons (a b : String) (l : Query) (k : String) :
    qGet ((a, b) :: l) k = if k = a then some b else qGet l k := by
  by_cases h : k = a
  · have hb : (k == a) = true := beq_iff_eq.mpr h
    simp [qGet, List.lookup, hb, h]
  · have hb : (k == a) = false := beq_eq_false_iff_ne.mpr h
    simp [qGet, List.lookup, hb, h]

theorem qHas_cons (a b : String) (l : Query) (k : String) :
    qHas ((a, b) :: l) k = ((a == k) || qHas l k) := by
  simp [qHas]

theorem filterKey_cons (a b : String) (l : Query) (k : String) :
    filterKey ((a, b) :: l) k
      = if a = k then (a, b) :: filterKey l k else filterKey l k := by
  by_cases h : a = k <;> simp [filterKey, List.filter_cons, h]

theorem removeAllKey_cons (a b : String) (l : Query) (k : String) :
    removeAllKey ((a, b) :: l) k
      = if a = k then removeAllKey l k else (a, b) :: removeAllKey l k := by
  by_cases h : a = k <;> simp [removeAllKey, List.filter_cons, h]

theorem searchParamsSet_cons (a b : String) (rest : Query) (k v : String) :
    searchParamsSet ((a, b) :: rest) k v
      = if a = k then (k, v) :: removeAllKey rest k
        else (a, b) :: searchParamsSet rest k v := rfl

theorem removeAllKey_filterKey (q : Query) (k k' : String) (h : k' ≠ k) :
    filterKey (removeAllKey q k) k' = filterKey q k' := by
  induction q with
  | nil => rfl
  | cons e rest ih =>
      rcases e with ⟨a, b⟩
      rw [removeAllKey_cons]
      by_cases hak : a = k
      · rw [if_pos hak, ih, filterKey_cons, if_neg (by rw [hak]; exact Ne.symm h)]
      · rw [if_neg hak, filterKey_cons, filterKey_cons, ih]

theorem removeAllKey_qGet (q : Query) (k k' : String) (h : k' ≠ k) :
    qGet (removeAllKey q k) k' = qGet q k' := by
  induction q with
  | nil => rfl
  | cons e rest ih =>
      rcases e with ⟨a, b⟩
      rw [removeAllKey_cons]
      by_cases hak : a = k
      · rw [if_pos hak, ih, qGet_cons, if_neg (by rw [hak]; exact h)]
      · rw [if_neg hak, qGet_cons, qGet_cons, ih]

theorem removeAllKey_qHas (q : Query) (k k' : String) (h : k' ≠ k) :
    qHas (removeAllKey q k) k' = qHas q k' := by
  induction q with
  | nil => rfl
  | cons e rest ih =>
      rcases e with ⟨a, b⟩
      rw [removeAllKey_cons]
      by_cases hak : a = k
      · rw [if_pos hak, ih, qHas_cons]
        have hb : (a == k') = false := by
          apply beq_eq_false_iff_ne.mpr; rw [hak]; exact Ne.symm h
        rw [hb, Bool.false_or]
      · rw [if_neg hak, qHas_cons, qHas_cons, ih]

/-- set followed by get on the same key returns the set value. -/
theorem searchParamsSet_get_self (q : Query) (k v : String) :
    qGet (searchParamsSet q k v) k = some v := by
  induction q with
  | nil =>
      rw [show searchParamsSet [] k v = [(k, v)] from rfl, qGet_cons, if_pos rfl]
  | cons e rest ih =>
      rcases e with ⟨a, b⟩
      rw [searchParamsSet_cons]
      by_cases hak : a = k
      · rw [if_pos hak, qGet_cons, if_pos rfl]
      · rw [if_neg hak, qGet_cons, if_neg (fun hh => hak hh.symm), ih]

/-- set leaves lookups of other keys unchanged. -/
theorem searchParamsSet_get_other (q : Query) (k v k' : String) (h : k' ≠ k) :
    qGet (searchParamsSet q k v) k' = qGet q k' := by
  induction q with
  | nil =>
      rw [show searchParamsSet [] k v = [(k, v)] from rfl, qGet_cons, if_neg h]
  | cons e rest ih =>
      rcases e with ⟨a, b⟩
      rw [searchParamsSet_cons]
      by_cases hak : a = k
      · rw [if_pos hak, qGet_cons, if_neg h, removeAllKey_qGet rest k k' h,
          qGet_cons, if_neg (by rw [hak]; exact h)]
      · rw [if_neg hak, qGet_cons, qGet_cons, ih]

/-- set leaves the entries of other keys entirely unchanged. -/
theorem searchParamsSet_filterKey_other (q : Query) (k v k' : String) (h : k' ≠ k) :
    filterKey (searchParamsSet q k v) k' = filterKey q k' := by
  induction q with
  | nil =>
      rw [show searchParamsSet [] k v = [(k, v)] from rfl, filterKey_cons,
        if_neg (Ne.symm h)]
  | cons e rest ih =>
      rcases e with ⟨a, b⟩
      rw [searchParamsSet_cons]
      by_cases hak : a = k
      · rw [if_pos hak, filterKey_cons, if_neg (Ne.symm h),
          removeAllKey_filterKey rest k k' h, filterKey_cons,
          if_neg (by rw [hak]; exact Ne.symm h)]
      · rw [if_neg hak, filterKey_cons, filterKey_cons, ih]

/-- set preserves presence of other keys. -/
theorem searchParamsSet_has_other (q : Query) (k v k' : String) (h : k' ≠ k) :
    qHas (searchParamsSet q k v) k' = qHas q k' := by
  induction q with
  | nil =>
      rw [show searchParamsSet [] k v = [(k, v)] from rfl, qHas_cons]
      have hb : (k == k') = false := beq_eq_false_iff_ne.mpr (Ne.symm h)
      rw [hb, Bool.false_or]
  | cons e rest ih =>
      rcases e with ⟨a, b⟩
      rw [searchParamsSet_cons]
      by_cases hak : a = k
      · rw [if_pos hak, qHas_cons, removeAllKey_qHas rest k k' h, qHas_cons]
        have h1 : (k == k') = false := beq_eq_false_iff_ne.mpr (Ne.symm h)
        have h2 : (a == k') = false := by
          apply beq_eq_false_iff_ne.mpr; rw [hak]; exact Ne.symm h
        rw [h1, h2]
      · rw [if_neg hak, qHas_cons, qHas_cons, ih]

/-! ## Branch lemmas for the resolution step -/

theorem resolveReferral_url (ps : Params) (stored : Option ReferralData)
    (rd : ReferralData) (h : hasUrlSignal ps = true) :
    resolveReferral ps stored rd =
      { rd with
        referrer := ((extractReferralFromUrl ps).referrer).or rd.referrer
        , inviteCode := ((extractReferralFromUrl ps).inviteCode).or rd.inviteCode
        , source := (extractReferralFromUrl ps).source
        , utm := extractUTMParams ps } := by
  have h' : ((extractReferralFromUrl ps).referrer.isSome ||
      ((extractReferralFromUrl ps).inviteCode.isSome ||
        utmHasSome (extractUTMParams ps))) = true := by
    have := h
    unfold hasUrlSignal at this
    simpa [Bool.or_assoc] using this
  simp only [resolveReferral, Bool.or_assoc, h', if_true]

theorem resolveReferral_no_url (ps : Params) (stored : Option ReferralData)
    (rd : ReferralData) (h : hasUrlSignal ps = false) :
    resolveReferral ps stored rd =
      match stored with
      | some s => s
      | none =>
          { rd with
            referrer :=
              if rd.referrer == some "user" || !isValidUsername (jsStr rd.referrer) then
                some REFERRAL_CONFIG.defaultReferrer
              else rd.referrer
            , inviteCode :=
              if rd.inviteCode == some "ITfssi" || !isValidInviteCode (jsStr rd.inviteCode) then
                some REFERRAL_CONFIG.defaultCode
              else rd.inviteCode } := by
  have h' : ((extractReferralFromUrl ps).referrer.isSome ||
      ((extractReferralFromUrl ps).inviteCode.isSome ||
        utmHasSome (extractUTMParams ps))) = false := by
    have := h
    unfold hasUrlSignal at this
    simpa [Bool.or_assoc] using this
  simp only [resolveReferral, Bool.or_assoc, h', Bool.false_eq_true, if_false]

/-! ## Claim theorems -/

/-- C1, counterexample.  The claim states that in the generic pass the first
parameter value matching the username pattern becomes the referrer candidate
and that a later-priority parameter never overwrites a role set by an
earlier one.  With the query invite=bob_x, refcode=carol_x both values match
only the username pattern; bob_x (parameter invite, priority 3) is examined
first, yet the pass — and the whole of extractReferralFromUrl — returns
carol_x from the later-priority parameter refcode: the later value overwrote
the earlier role assignment. -/
theorem C1_counterexample :
    isValidUsername "bob_x" = true ∧
    isValidInviteCode "bob_x" = false ∧
    (genericPass [("invite", "bob_x"), ("refcode", "carol_x")]).1 = some "carol_x" ∧
    (extractReferralFromUrl [("invite", "bob_x"), ("refcode", "carol_x")]).referrer
      = some "carol_x" ∧
    some "carol_x" ≠ some "bob_x" := by decide

/-- C1, amended: in the generic pass over the priority-ordered parameter
list, the LAST parameter value matching the invite-code pattern becomes the
invite-code candidate, and the LAST value failing the invite-code pattern
but matching the username pattern becomes the referrer candidate — each
later-priority match overwrites the role set by an earlier one (a single
parameter still feeds at most one role, invite-code tested first). -/
theorem C1_generic_pass_last_match (ps : Params) :
    genericPass ps =
      ((REFERRAL_CONFIG.validParams.filterMap (usernameCandidate ps)).getLast?,
       (REFERRAL_CONFIG.validParams.filterMap (codeCandidate ps)).getLast?) := by
  rw [genericPass, genericPassAux_eq]
  simp

/-- C2: resolution precedence of initReferralTracking.  If any referral,
invite or UTM signal is present in the URL, the resolved state is built from
the URL pass alone — identical whatever the persisted state, with the
referrer and invite-code falling back to the deploy-time initial
referralData (not the persisted values) when absent from the URL, the source
taken from the URL pass and the UTM block from the URL.  With no URL signal
the persisted state is returned unchanged when it exists.  With neither, the
deploy-time defaults are returned (the build placeholders of this snapshot
resolve to REFERRAL_CONFIG.defaultReferrer and REFERRAL_CONFIG.defaultCode). -/
theorem C2_resolution_precedence (ps : Params) (stored : Option ReferralData) :
    (hasUrlSignal ps = true →
      resolveReferral ps stored initialReferralData
          = resolveReferral ps none initialReferralData ∧
      (resolveReferral ps stored initialReferralData).referrer
          = ((extractReferralFromUrl ps).referrer).or initialReferralData.referrer ∧
      (resolveReferral ps stored initialReferralData).inviteCode
          = ((extractReferralFromUrl ps).inviteCode).or initialReferralData.inviteCode ∧
      (resolveReferral ps stored initialReferralData).source
          = (extractReferralFromUrl ps).source ∧
      (resolveReferral ps stored initialReferralData).utm = extractUTMParams ps) ∧
    (hasUrlSignal ps = false → ∀ s, stored = some s →
      resolveReferral ps stored initialReferralData = s) ∧
    (hasUrlSignal ps = false → stored = none →
      (resolveReferral ps stored initialReferralData).referrer
          = some REFERRAL_CONFIG.defaultReferrer ∧
      (resolveReferral ps stored initialReferralData).inviteCode
          = some REFERRAL_CONFIG.defaultCode) := by
  refine ⟨?_, ?_, ?_⟩
  · intro h
    rw [resolveReferral_url ps stored initialReferralData h,
      resolveReferral_url ps none initialReferralData h]
    exact ⟨rfl, rfl, rfl, rfl, rfl⟩
  · intro h s hs
    rw [resolveReferral_no_url ps stored initialReferralData h, hs]
  · intro h hs
    rw [resolveReferral_no_url ps stored initialReferralData h, hs]
    constructor <;> decide

/-- C2, witness at concrete inputs: with the query ref=bob plus a UTM source
the URL branch ignores a stored state; with an empty query the stored state
is returned unchanged; resolved fields shown concretely. -/
theorem C2_resolution_precedence_witness :
    (resolveReferral [("ref", "bob"), ("utm_source", "newsletter")]
        (some ⟨some "zoe", some "qq111", "cookie", utmAllNone⟩) initialReferralData
      = resolveReferral [("ref", "bob"), ("utm_source", "newsletter")]
        none initialReferralData) ∧
    (resolveReferral []
        (some ⟨some "zoe", some "qq111", "cookie", utmAllNone⟩) initialReferralData
      = ⟨some "zoe", some "qq111", "cookie", utmAllNone⟩) ∧
    (resolveReferral [] none initialReferralData).referrer
      = some REFERRAL_CONFIG.defaultReferrer := by
  refine ⟨?_, ?_, ?_⟩
  · exact ((C2_resolution_precedence [("ref", "bob"), ("utm_source", "newsletter")]
      (some ⟨some "zoe", some "qq111", "cookie", utmAllNone⟩)).1 (by decide)).1
  · exact (C2_resolution_precedence []
      (some ⟨some "zoe", some "qq111", "cookie", utmAllNone⟩)).2.1 (by decide) _ rfl
  · exact ((C2_resolution_precedence [] none).2.2 (by decide) rfl).1

/-- C3, counterexample.  The claim states exponential backoff starting at
one second and doubling on each successive attempt.  With the deploy-time
defaults (maxRetries 3, retryDelay 1000 ms) and a request that fails on
every attempt, the delays the code schedules are the constant
[1000, 1000, 1000] — not the doubling schedule [1000, 2000, 4000] the claim
describes. -/
theorem C3_counterexample :
    (sendToBackendRun defaultAnalyticsRetryOptions.retryDelay
        (List.replicate 4 Outcome.fail)
        ⟨defaultAnalyticsRetryOptions.maxRetries, none⟩).2 = [1000, 1000, 1000] ∧
    specExponentialBackoffDelays 3 1000 = [1000, 2000, 4000] ∧
    (sendToBackendRun defaultAnalyticsRetryOptions.retryDelay
        (List.replicate 4 Outcome.fail)
        ⟨defaultAnalyticsRetryOptions.maxRetries, none⟩).2
      ≠ specExponentialBackoffDelays 3 1000 := by decide

/-- C3, amended: a failing request is retried while the shared retry counter
is positive — with the deploy defaults at most maxRetries = 3 retries, each
scheduled on a timer after a constant retryDelay (default 1000 ms, never
doubled) — and once the counter is exhausted the chain stops silently,
scheduling nothing further and surfacing no error. -/
theorem C3_constant_backoff (d b n : Nat) (r : Option String) (h : b ≤ n) :
    sendToBackendRun d (List.replicate n Outcome.fail) ⟨b, r⟩
      = (⟨0, r⟩, List.replicate b d) ∧
    defaultAnalyticsRetryOptions.maxRetries = 3 ∧
    defaultAnalyticsRetryOptions.retryDelay = 1000 :=
  ⟨sendToBackendRun_all_fail d b n r h, rfl, rfl⟩

/-- C3, witness: the default budget of 3 against five failing attempts gives
exactly three constant-delay retries. -/
theorem C3_constant_backoff_witness :
    sendToBackendRun 1000 (List.replicate 5 Outcome.fail) ⟨3, none⟩
      = (⟨0, none⟩, List.replicate 3 1000) ∧
    defaultAnalyticsRetryOptions.maxRetries = 3 ∧
    defaultAnalyticsRetryOptions.retryDelay = 1000 :=
  C3_constant_backoff 1000 3 5 none (by decide)

/-- C4: update gating.  While no backend-assigned record id has been
captured, no entry point issues an update call; the four pure-update entry
points (time-on-page tick, registration click, updateField, final unload
update) drop the request entirely — state unchanged and nothing queued; and
along any session whose create calls never complete with a truthy id, the
whole run issues zero update calls. -/
theorem C4_updates_gated (st : TrackState) (op : TrackOp) (ops : List TrackOp)
    (hst : st.recordId = none)
    (hops : ∀ o ∈ ops, createCompletes o = false) :
    Call.update ∉ (trackStep st op).2 ∧
    trackStep st TrackOp.timeTick = (st, []) ∧
    trackStep st TrackOp.registrationClick = (st, []) ∧
    trackStep st TrackOp.updateFieldOp = (st, []) ∧
    trackStep st TrackOp.finalUpdate = (st, []) ∧
    Call.update ∉ (trackRun initialTrackState ops).2 := by
  refine ⟨trackStep_no_update st op hst, ?_, ?_, ?_, ?_,
    trackRun_no_update ops initialTrackState rfl hops⟩
  all_goals simp [trackStep, hst]

/-- C4, witness: a concrete state with no captured id and a session of a
failed page view, a time tick, a CTA click and an updateField call issues no
update calls. -/
theorem C4_updates_gated_witness :
    Call.update ∉ (trackStep ⟨none, 5⟩ TrackOp.updateFieldOp).2 ∧
    trackStep ⟨none, 5⟩ TrackOp.timeTick = (⟨none, 5⟩, []) ∧
    trackStep ⟨none, 5⟩ TrackOp.registrationClick = (⟨none, 5⟩, []) ∧
    trackStep ⟨none, 5⟩ TrackOp.updateFieldOp = (⟨none, 5⟩, []) ∧
    trackStep ⟨none, 5⟩ TrackOp.finalUpdate = (⟨none, 5⟩, []) ∧
    Call.update ∉ (trackRun initialTrackState
        [TrackOp.pageView none, TrackOp.timeTick, TrackOp.click true,
         TrackOp.updateFieldOp]).2 :=
  C4_updates_gated ⟨none, 5⟩ TrackOp.updateFieldOp
    [TrackOp.pageView none, TrackOp.timeTick, TrackOp.click true,
     TrackOp.updateFieldOp] rfl (by decide)

/-- C5: milestone dedup.  A dedup key already recorded in the persisted map
is never rewritten (the map is returned unchanged) and its webhook never
fires again; two successive checks of the same category and threshold never
fire twice, whatever the state; and along any sequence of checkMilestone
calls from any starting map, a given key's webhook fires at most once. -/
theorem C5_milestone_idempotent (m : MilestoneMap) (n1 n2 t : String) (v : Nat)
    (calls : List (String × Nat × String)) (k : String) :
    (achievedHas m (milestoneKey t v) = true → checkMilestone m n1 t v = (m, false)) ∧
    (checkMilestone (checkMilestone m n1 t v).1 n2 t v).2 = false ∧
    (runChecks calls (m, [])).2.count k ≤ 1 := by
  refine ⟨?_, ?_, ?_⟩
  · intro h
    simp [checkMilestone, h]
  · by_cases h1 : achievedHas m (milestoneKey t v) = true
    · simp [checkMilestone, h1]
    · have h1f : achievedHas m (milestoneKey t v) = false := Bool.not_eq_true _ ▸ h1
      by_cases h2 : (MILESTONES t).contains v = true
      · have h2m : v ∈ MILESTONES t := by simpa using h2
        simp [checkMilestone, h1f, h2m, achievedHas_cons]
      · have h2m : v ∉ MILESTONES t := by simpa using h2
        simp [checkMilestone, h2m]
  · have h := runChecks_count calls (m, []) k
    by_cases hk : achievedHas m k = true
    · rw [hk] at h
      simpa using Nat.le_trans h (by simp)
    · have hkf : achievedHas m k = false := Bool.not_eq_true _ ▸ hk
      rw [hkf] at h
      simpa using h

/-- C5, witness: from an empty map a visitors threshold fires once and a
second identical check does not fire; a key present in the map is left
untouched. -/
theorem C5_milestone_idempotent_witness :
    (achievedHas [(milestoneKey "visitors" 10, "t0")] (milestoneKey "visitors" 10) = true →
      checkMilestone [(milestoneKey "visitors" 10, "t0")] "t1" "visitors" 10
        = ([(milestoneKey "visitors" 10, "t0")], false)) ∧
    (checkMilestone (checkMilestone [(milestoneKey "visitors" 10, "t0")] "t1" "visitors" 10).1
        "t2" "visitors" 10).2 = false ∧
    (runChecks [("visitors", 10, "t1"), ("visitors", 10, "t2")]
        ([(milestoneKey "visitors" 10, "t0")], [])).2.count (milestoneKey "visitors" 10) ≤ 1 :=
  C5_milestone_idempotent [(milestoneKey "visitors" 10, "t0")] "t1" "t2" "visitors" 10
    [("visitors", 10, "t1"), ("visitors", 10, "t2")] (milestoneKey "visitors" 10)

/-- C6, counterexample.  The claim states the tick evaluates all three
tracked categories including referrals.  Referral thresholds are configured
in MILESTONES, yet from a fresh map — whatever the stats — the tick fires
only visitors and registrations milestones: here, with huge counts, every
matching visitors and registrations key fires while no referrals key ever
appears in the fired list (the stats object the tick reads carries no
referral count and the tick has no referrals loop). -/
theorem C6_counterexample :
    MILESTONES "referrals" = [5, 10, 25, 50, 100] ∧
    ((MILESTONES "referrals").map (fun v => milestoneKey "referrals" v)).all
        (fun k => !(monitorTick [] "t0" ⟨10000, 500⟩).2.contains k) = true ∧
    milestoneKey "visitors" 10000 ∈ (monitorTick [] "t0" ⟨10000, 500⟩).2 ∧
    milestoneKey "registrations" 500 ∈ (monitorTick [] "t0" ⟨10000, 500⟩).2 ∧
    (monitorTick [] "t0" ⟨10000, 500⟩).2.length = 14 := by decide

/-- C6, amended: on each 60-second tick the engine evaluates exactly two
categories — visitors and registrations; referrals, though configured, is
never polled.  Every fired key belongs to one of those two categories; for
each of them, every configured threshold at or below the current value whose
dedup key is not yet persisted fires (once, then its key is recorded); and a
key already persisted never fires. -/
theorem C6_tick_two_categories (m : MilestoneMap) (now : String) (s : Stats) :
    monitorIntervalMs = 60000 ∧
    (∀ k ∈ (monitorTick m now s).2,
      (∃ v, v ∈ MILESTONES "visitors" ∧ k = milestoneKey "visitors" v) ∨
      (∃ v, v ∈ MILESTONES "registrations" ∧ k = milestoneKey "registrations" v)) ∧
    (∀ v ∈ MILESTONES "visitors", v ≤ s.totalVisitors →
      achievedHas m (milestoneKey "visitors" v) = false →
      milestoneKey "visitors" v ∈ (monitorTick m now s).2) ∧
    (∀ v ∈ MILESTONES "registrations", v ≤ s.registrations →
      achievedHas m (milestoneKey "registrations" v) = false →
      milestoneKey "registrations" v ∈ (monitorTick m now s).2) ∧
    (∀ k, achievedHas m k = true → k ∉ (monitorTick m now s).2) := by
  refine ⟨rfl, ?_, ?_, ?_, ?_⟩
  · -- soundness: every fired key belongs to a polled category
    intro k hk
    rw [monitorTick_eq] at hk
    rcases runChecks_sound _ _ _ hk with h | ⟨t, v, n, hm, he⟩
    · simp at h
    · unfold tickCalls at hm
      rcases List.mem_append.mp hm with hmem | hmem
      · by_cases hv : s.totalVisitors ≠ 0
        · rw [if_pos hv] at hmem
          rcases List.mem_map.mp hmem with ⟨v', hv', he'⟩
          have hv2 : v' ∈ MILESTONES "visitors" := List.mem_of_mem_filter hv'
          injection he' with e1 e23
          injection e23 with e2 e3
          subst e1; subst e2
          exact Or.inl ⟨v', hv2, he⟩
        · rw [if_neg hv] at hmem
          simp at hmem
      · by_cases hr : s.registrations ≠ 0
        · rw [if_pos hr] at hmem
          rcases List.mem_map.mp hmem with ⟨v', hv', he'⟩
          have hv2 : v' ∈ MILESTONES "registrations" := List.mem_of_mem_filter hv'
          injection he' with e1 e23
          injection e23 with e2 e3
          subst e1; subst e2
          exact Or.inr ⟨v', hv2, he⟩
        · rw [if_neg hr] at hmem
          simp at hmem
  · -- completeness for the visitors category
    intro v hv hle habs
    have hpos : 0 < v := by
      have hvm := hv
      simp [MILESTONES] at hvm
      rcases hvm with rfl | rfl | rfl | rfl | rfl | rfl | rfl <;> norm_num
    have hvz : s.totalVisitors ≠ 0 := by omega
    rw [monitorTick_eq]
    refine runChecks_complete _ _ "visitors" v ⟨now, ?_⟩ (by simpa using hv) habs
    unfold tickCalls
    refine List.mem_append.mpr (Or.inl ?_)
    rw [if_pos hvz]
    exact List.mem_map.mpr ⟨v, List.mem_filter.mpr ⟨hv, by simpa using hle⟩, rfl⟩
  · -- completeness for the registrations category
    intro v hv hle habs
    have hpos : 0 < v := by
      have hvm := hv
      simp [MILESTONES] at hvm
      rcases hvm with rfl | rfl | rfl | rfl | rfl | rfl | rfl <;> norm_num
    have hrz : s.registrations ≠ 0 := by omega
    rw [monitorTick_eq]
    refine runChecks_complete _ _ "registrations" v ⟨now, ?_⟩ (by simpa using hv) habs
    unfold tickCalls
    refine List.mem_append.mpr (Or.inr ?_)
    rw [if_pos hrz]
    exact List.mem_map.mpr ⟨v, List.mem_filter.mpr ⟨hv, by simpa using hle⟩, rfl⟩
  · -- a persisted key never fires
    intro k hk hkin
    rw [monitorTick_eq] at hkin
    have := runChecks_no_refire _ _ _ hk hkin
    simp at this

/-- C6, witness: a not-yet-achieved visitors threshold fires on a tick, a
persisted key does not fire again. -/
theorem C6_tick_two_categories_witness :
    milestoneKey "visitors" 10 ∈ (monitorTick [] "t1" ⟨12, 0⟩).2 ∧
    milestoneKey "visitors" 10 ∉
      (monitorTick [(milestoneKey "visitors" 10, "t0")] "t1" ⟨12, 0⟩).2 := by
  constructor
  · exact (C6_tick_two_categories [] "t1" ⟨12, 0⟩).2.2.1 10 (by decide) (by decide)
      (by decide)
  · exact (C6_tick_two_categories [(milestoneKey "visitors" 10, "t0")] "t1"
      ⟨12, 0⟩).2.2.2.2 (milestoneKey "visitors" 10) (by decide)

/-- C7: round-trip through attribution persistence.  With the primary store
usable, saveReferralData followed by loadReferralData returns a state whose
referrer, inviteCode and utm fields equal those of the saved state (the
primary store holds the full record, so the whole record round-trips; the
load path reads no URL signal). -/
theorem C7_save_load_roundtrip (st : Storage) (d : ReferralData) :
    ∃ l, loadReferralData true (saveReferralData true st d) = some l ∧
      l.referrer = d.referrer ∧ l.inviteCode = d.inviteCode ∧ l.utm = d.utm := by
  refine ⟨d, ?_, rfl, rfl, rfl⟩
  unfold saveReferralData loadReferralData
  by_cases h : utmHasSome d.utm = true <;> simp [h]

/-- C9, counterexample.  The claim asserts at most maxRetries (default 3)
retries occur in total across all calls combined.  The positive-counter
check runs in the catch at failure time while the decrement runs later in
the timer callback, so two overlapping retry chains (for example a failing
page-view create and a failing trackEvent create, both unconditional
sendToBackend callers) can each pass the check before the other's decrement:
with the default budget of 3, the traced interleaving — both initial
attempts fail, then the chains' timers alternate — executes 4 retries, every
scheduled timer fires, and the counter ends at -1. -/
theorem C9_counterexample :
    retriesFired ⟨3, 0⟩
        [LoopEvent.fail, LoopEvent.fail, LoopEvent.fire, LoopEvent.fail,
         LoopEvent.fire, LoopEvent.fail, LoopEvent.fire, LoopEvent.fail,
         LoopEvent.fire, LoopEvent.fail] = 4 ∧
    (loopRun ⟨3, 0⟩
        [LoopEvent.fail, LoopEvent.fail, LoopEvent.fire, LoopEvent.fail,
         LoopEvent.fire, LoopEvent.fail, LoopEvent.fire, LoopEvent.fail,
         LoopEvent.fire, LoopEvent.fail]).pending = 0 ∧
    (loopRun ⟨3, 0⟩
        [LoopEvent.fail, LoopEvent.fail, LoopEvent.fire, LoopEvent.fail,
         LoopEvent.fire, LoopEvent.fail, LoopEvent.fire, LoopEvent.fail,
         LoopEvent.fire, LoopEvent.fail]).counter = -1 ∧
    defaultAnalyticsRetryOptions.maxRetries = 3 ∧
    ¬ (4 ≤ 3) := by decide

/-- C9, amended: the retry budget is one shared mutable counter, but its
total bound only holds for non-overlapping chains.  Over any interleaved
trace of the event loop, the retries executed equal the counter's total
decrease — each executed retry permanently decrements
config.options.maxRetries by exactly one; a request failing while the
counter is not positive schedules no retry; and when retry chains do not
overlap (each sendToBackend chain completing before the next request fails,
as in runRequests), the retries scheduled plus the remaining counter equal
the initial counter, so at most the initial budget — default 3 — retries
occur in total.  Overlapping chains can exceed that total because the check
precedes the decrement. -/
theorem C9_shared_retry_budget (es : List LoopEvent) (st : LoopState)
    (d : Nat) (reqs : List (List Outcome)) (st2 : SendState) :
    st.counter - (loopRun st es).counter = (retriesFired st es : Int) ∧
    (st.counter ≤ 0 → loopStep st LoopEvent.fail = st) ∧
    (runRequests d reqs st2).2.length + (runRequests d reqs st2).1.budget
        = st2.budget ∧
    (runRequests d reqs st2).2.length ≤ st2.budget ∧
    defaultAnalyticsRetryOptions.maxRetries = 3 := by
  have h := runRequests_budget d reqs st2
  refine ⟨loopRun_counter es st, ?_, by omega, by omega, rfl⟩
  intro hc
  unfold loopStep
  rw [if_neg (by omega)]

/-- C9, witness: the accounting at a concrete two-chain trace, a failure at
an exhausted counter scheduling nothing, and the serialized bound at the
default budget. -/
theorem C9_shared_retry_budget_witness :
    (⟨3, 0⟩ : LoopState).counter
        - (loopRun ⟨3, 0⟩ [LoopEvent.fail, LoopEvent.fail, LoopEvent.fire,
            LoopEvent.fire]).counter
      = (retriesFired ⟨3, 0⟩ [LoopEvent.fail, LoopEvent.fail, LoopEvent.fire,
            LoopEvent.fire] : Int) ∧
    loopStep ⟨0, 5⟩ LoopEvent.fail = ⟨0, 5⟩ ∧
    (runRequests 1000
        [[Outcome.fail, Outcome.fail, Outcome.fail, Outcome.fail]]
        ⟨3, none⟩).2.length ≤ 3 := by
  refine ⟨?_, ?_, ?_⟩
  · exact (C9_shared_retry_budget [LoopEvent.fail, LoopEvent.fail, LoopEvent.fire,
      LoopEvent.fire] ⟨3, 0⟩ 1000 [] ⟨0, none⟩).1
  · exact (C9_shared_retry_budget [] ⟨0, 5⟩ 1000 [] ⟨0, none⟩).2.1 (by decide)
  · exact (C9_shared_retry_budget [] ⟨0, 5⟩ 1000
      [[Outcome.fail, Outcome.fail, Outcome.fail, Outcome.fail]] ⟨3, none⟩).2.2.2.1

/-- C8, counterexample.  The claim states all three parameters are set or
overwritten on an allow-listed link.  On a registration link whose query
already carries referrer and source, the rewriter adds recomId but leaves
the existing referrer and source values untouched: referrer stays "old"
instead of being overwritten with the resolved "bob". -/
theorem C8_counterexample :
    isRegistrationHref "https://unilive.io/register?referrer=old&source=email"
        = true ∧
    updateRegistrationLink ⟨some "bob", some "abc12", "url_param", utmAllNone⟩
        [("referrer", "old"), ("source", "email")]
      = [("referrer", "old"), ("source", "email"), ("recomId", "abc12")] ∧
    qGet (updateRegistrationLink ⟨some "bob", some "abc12", "url_param", utmAllNone⟩
        [("referrer", "old"), ("source", "email")]) "referrer" = some "old" ∧
    some "old" ≠ some "bob" := by decide

/-- C8, amended: on an allow-listed link the rewriter always sets or
overwrites recomId to the invite code, but sets referrer and source only
when the query does not already carry them — a pre-existing referrer or
source value is left unchanged — and the entries of every other query
parameter are untouched. -/
theorem C8_link_rewrite (d : ReferralData) (q : Query) :
    qGet (updateRegistrationLink d q) "recomId" = some (jsStr d.inviteCode) ∧
    (qHas q "referrer" = true →
      qGet (updateRegistrationLink d q) "referrer" = qGet q "referrer") ∧
    (qHas q "referrer" = false →
      qGet (updateRegistrationLink d q) "referrer" = some (jsStr d.referrer)) ∧
    (qHas q "source" = true →
      qGet (updateRegistrationLink d q) "source" = qGet q "source") ∧
    (qHas q "source" = false →
      qGet (updateRegistrationLink d q) "source" = some d.source) ∧
    (∀ k, k ≠ "recomId" → k ≠ "referrer" → k ≠ "source" →
      filterKey (updateRegistrationLink d q) k = filterKey q k) := by
  have hRefRec : ("referrer" : String) ≠ "recomId" := by decide
  have hSrcRec : ("source" : String) ≠ "recomId" := by decide
  have hSrcRef : ("source" : String) ≠ "referrer" := by decide
  have hRecRef : ("recomId" : String) ≠ "referrer" := by decide
  have hRecSrc : ("recomId" : String) ≠ "source" := by decide
  have hRefSrc : ("referrer" : String) ≠ "source" := by decide
  have hHasRef1 : qHas (searchParamsSet q "recomId" (jsStr d.inviteCode)) "referrer"
      = qHas q "referrer" :=
    searchParamsSet_has_other q "recomId" (jsStr d.inviteCode) "referrer" hRefRec
  have hHasSrc1 : qHas (searchParamsSet q "recomId" (jsStr d.inviteCode)) "source"
      = qHas q "source" :=
    searchParamsSet_has_other q "recomId" (jsStr d.inviteCode) "source" hSrcRec
  simp only [updateRegistrationLink]
  by_cases hR : qHas (searchParamsSet q "recomId" (jsStr d.inviteCode)) "referrer" = true
  · rw [if_pos hR]
    by_cases hS : qHas (searchParamsSet q "recomId" (jsStr d.inviteCode)) "source" = true
    · rw [if_pos hS]
      refine ⟨searchParamsSet_get_self q "recomId" (jsStr d.inviteCode), ?_, ?_, ?_, ?_, ?_⟩
      · intro _
        exact searchParamsSet_get_other q "recomId" (jsStr d.inviteCode) "referrer" hRefRec
      · intro hcon
        rw [hHasRef1, hcon] at hR
        cases hR
      · intro _
        exact searchParamsSet_get_other q "recomId" (jsStr d.inviteCode) "source" hSrcRec
      · intro hcon
        rw [hHasSrc1, hcon] at hS
        cases hS
      · intro k hk1 _ _
        exact searchParamsSet_filterKey_other q "recomId" (jsStr d.inviteCode) k hk1
    · rw [if_neg hS]
      refine ⟨?_, ?_, ?_, ?_, ?_, ?_⟩
      · rw [searchParamsSet_get_other _ "source" d.source "recomId" hRecSrc]
        exact searchParamsSet_get_self q "recomId" (jsStr d.inviteCode)
      · intro _
        rw [searchParamsSet_get_other _ "source" d.source "referrer" hRefSrc]
        exact searchParamsSet_get_other q "recomId" (jsStr d.inviteCode) "referrer" hRefRec
      · intro hcon
        rw [hHasRef1, hcon] at hR
        cases hR
      · intro hcon
        rw [← hHasSrc1] at hcon
        exact absurd hcon hS
      · intro _
        exact searchParamsSet_get_self _ "source" d.source
      · intro k hk1 _ hk3
        rw [searchParamsSet_filterKey_other _ "source" d.source k hk3]
        exact searchParamsSet_filterKey_other q "recomId" (jsStr d.inviteCode) k hk1
  · rw [if_neg hR]
    have hHasSrc2 : qHas (searchParamsSet (searchParamsSet q "recomId" (jsStr d.inviteCode))
        "referrer" (jsStr d.referrer)) "source"
        = qHas q "source" := by
      rw [searchParamsSet_has_other _ "referrer" (jsStr d.referrer) "source" hSrcRef]
      exact hHasSrc1
    by_cases hS : qHas (searchParamsSet (searchParamsSet q "recomId" (jsStr d.inviteCode))
        "referrer" (jsStr d.referrer)) "source" = true
    · rw [if_pos hS]
      refine ⟨?_, ?_, ?_, ?_, ?_, ?_⟩
      · rw [searchParamsSet_get_other _ "referrer" (jsStr d.referrer) "recomId" hRecRef]
        exact searchParamsSet_get_self q "recomId" (jsStr d.inviteCode)
      · intro hcon
        rw [← hHasRef1] at hcon
        exact absurd hcon hR
      · intro _
        exact searchParamsSet_get_self _ "referrer" (jsStr d.referrer)
      · intro _
        rw [searchParamsSet_get_other _ "referrer" (jsStr d.referrer) "source" hSrcRef]
        exact searchParamsSet_get_other q "recomId" (jsStr d.inviteCode) "source" hSrcRec
      · intro hcon
        rw [hHasSrc2, hcon] at hS
        cases hS
      · intro k hk1 hk2 _
        rw [searchParamsSet_filterKey_other _ "referrer" (jsStr d.referrer) k hk2]
        exact searchParamsSet_filterKey_other q "recomId" (jsStr d.inviteCode) k hk1
    · rw [if_neg hS]
      refine ⟨?_, ?_, ?_, ?_, ?_, ?_⟩
      · rw [searchParamsSet_get_other _ "source" d.source "recomId" hRecSrc,
          searchParamsSet_get_other _ "referrer" (jsStr d.referrer) "recomId" hRecRef]
        exact searchParamsSet_get_self q "recomId" (jsStr d.inviteCode)
      · intro hcon
        rw [← hHasRef1] at hcon
        exact absurd hcon hR
      · intro _
        rw [searchParamsSet_get_other _ "source" d.source "referrer" hRefSrc]
        exact searchParamsSet_get_self _ "referrer" (jsStr d.referrer)
      · intro hcon
        rw [← hHasSrc2] at hcon
        exact absurd hcon hS
      · intro _
        exact searchParamsSet_get_self _ "source" d.source
      · intro k hk1 hk2 hk3
        rw [searchParamsSet_filterKey_other _ "source" d.source k hk3,
          searchParamsSet_filterKey_other _ "referrer" (jsStr d.referrer) k hk2]
        exact searchParamsSet_filterKey_other q "recomId" (jsStr d.inviteCode) k hk1

/-- C8, witness: on a query with a pre-existing referrer, recomId appears
and the referrer stays; on an empty query all three are added. -/
theorem C8_link_rewrite_witness :
    qGet (updateRegistrationLink ⟨some "bob", some "abc12", "url_param", utmAllNone⟩
        [("referrer", "old")]) "referrer" = some "old" ∧
    qGet (updateRegistrationLink ⟨some "bob", some "abc12", "url_param", utmAllNone⟩
        []) "referrer" = some "bob" ∧
    qGet (updateRegistrationLink ⟨some "bob", some "abc12", "url_param", utmAllNone⟩
        []) "recomId" = some "abc12" := by
  refine ⟨?_, ?_, ?_⟩
  · have h := (C8_link_rewrite ⟨some "bob", some "abc12", "url_param", utmAllNone⟩
      [("referrer", "old")]).2.1 (by decide)
    rw [h]
    decide
  · exact (C8_link_rewrite ⟨some "bob", some "abc12", "url_param", utmAllNone⟩
      []).2.2.1 (by decide)
  · exact (C8_link_rewrite ⟨some "bob", some "abc12", "url_param", utmAllNone⟩ []).1

/-- The cookie branch of loadReferralData, evaluated on a known non-empty
cookie value. -/
theorem loadFromCookie_some (st : Storage) (c : String)
    (hc : st.cookieRef = some c) (hne : c ≠ "") :
    loadFromCookie st = some
      { referrer := some (if (splitPipe c).getD 0 "" = "" then
            REFERRAL_CONFIG.defaultReferrer else (splitPipe c).getD 0 "")
      , inviteCode := some (if (splitPipe c).getD 1 "" = "" then
            REFERRAL_CONFIG.defaultCode else (splitPipe c).getD 1 "")
      , source := "cookie"
      , utm := st.cookieUtm.getD utmAllNone } := by
  unfold loadFromCookie
  rw [hc]
  simp [hne]

/-- C10: saving a state whose referrer is null writes the literal text
"null" into the compact cookie — the cookie value is "null|<inviteCode>" —
so a load that misses the primary store returns a referrer equal to the
non-empty string "null": not null, and not the default referrer. -/
theorem C10_null_referrer_cookie (st : Storage) (ic : Option String)
    (src : String) (u : Utm) :
    (saveReferralData false st ⟨none, ic, src, u⟩).cookieRef
        = some (("null" ++ "|") ++ jsStr ic) ∧
    ∃ l, loadReferralData false (saveReferralData false st ⟨none, ic, src, u⟩)
          = some l ∧
      l.referrer = some "null" ∧
      l.referrer ≠ some REFERRAL_CONFIG.defaultReferrer ∧
      l.referrer ≠ none := by
  have hcookie : (saveReferralData false st ⟨none, ic, src, u⟩).cookieRef
      = some (("null" ++ "|") ++ jsStr ic) := by
    unfold saveReferralData
    by_cases h : utmHasSome u = true <;> simp [h, jsStr]
  have hne : (("null" ++ "|") ++ jsStr ic) ≠ "" := by
    intro hcontra
    have hlen := congrArg String.length hcontra
    rw [String.length_append, String.length_append] at hlen
    have h4 : ("null" : String).length = 4 := rfl
    have h1 : ("|" : String).length = 1 := rfl
    have h0 : ("" : String).length = 0 := rfl
    omega
  have hsplit : splitPipe (("null" ++ "|") ++ jsStr ic)
      = "null" :: splitPipe (jsStr ic) :=
    splitPipe_prefix "null" (jsStr ic) (by decide)
  have hload := loadFromCookie_some (saveReferralData false st ⟨none, ic, src, u⟩)
    (("null" ++ "|") ++ jsStr ic) hcookie hne
  rw [hsplit] at hload
  refine ⟨hcookie,
    ⟨{ referrer := some "null"
     , inviteCode := some (if (splitPipe (jsStr ic)).getD 0 "" = "" then
           REFERRAL_CONFIG.defaultCode else (splitPipe (jsStr ic)).getD 0 "")
     , source := "cookie"
     , utm := (saveReferralData false st ⟨none, ic, src, u⟩).cookieUtm.getD utmAllNone },
     ?_, rfl, ?_, ?_⟩⟩
  · unfold loadReferralData
    simp only [Bool.false_eq_true, if_false]
    exact hload
  · simp [REFERRAL_CONFIG]
  · simp
